import Mathlib

/-!
Shallow embedding of the cluster-lifecycle daemon (files `daemon/clusters.go`
and `daemon/nodes.go`) and proofs about it.

Modelling conventions:
* Go strings are Lean `String`s; character-level operations (`strings.Split`,
  `strconv.Atoi`) work on `String.data` (`List Char`).
* `time.Time` and `time.Duration` are integers (nanoseconds), as in Go's
  representation; `t1.Before(t2)` is `t1 < t2`.
* A Go map read of a missing key yields the zero value, which for the string
  labels used here is `""`; container label fields therefore hold `""` when
  the label is absent.
* The external collaborators (container runtime, metadata store) are passed
  in explicitly: the runtime's `ContainerList` result is a `List
  DockerContainer` argument, the metadata store is an association list.
-/

namespace Daemon

/-- Go `strings.Split(s, sep)` for a single-character separator, on the
character list of the string.  `Split("", sep) = [""]`, and the result always
has one more element than the number of separator occurrences. -/
def splitC (sep : Char) : List Char → List (List Char)
  | [] => [[]]
  | c :: cs =>
    if c = sep then [] :: splitC sep cs
    else
      match splitC sep cs with
      | [] => [[c]]
      | h :: t => (c :: h) :: t

/-- Parse a nonempty run of decimal digits (accumulator form), as
`strconv.Atoi`'s digit loop does; any non-digit character fails. -/
def parseDigitsAux : List Char → Nat → Option Nat
  | [], acc => some acc
  | c :: cs, acc =>
    if c.isDigit then parseDigitsAux cs (acc * 10 + (c.toNat - Char.toNat '0'))
    else none

def parseDigits (cs : List Char) : Option Nat :=
  if cs = [] then none else parseDigitsAux cs 0

/-- Go `strconv.Atoi`: optional leading sign, at least one digit, nothing
else, and the value must fit in a signed 64-bit int (`ParseInt(s, 10, 0)`
with 64-bit `int`); `none` models a non-nil error. -/
def go_atoi (cs : List Char) : Option Int :=
  let signed : Bool × List Char :=
    match cs with
    | '-' :: rest => (true, rest)
    | '+' :: rest => (false, rest)
    | _ => (false, cs)
  match parseDigits signed.2 with
  | none => none
  | some n =>
    let v : Int := if signed.1 then -(n : Int) else (n : Int)
    if -(2 ^ 63) ≤ v ∧ v < 2 ^ 63 then some v else none

/-- The closed flavor table `versionToFlavor` from `nodes.go`; a missing
entry is Go's `ok == false` two-level map lookup. -/
def versionToFlavor (major minor : Int) : Option String :=
  match major, minor with
  | 4, 0 => some "sherlock"
  | 4, 5 => some "watson"
  | 5, 0 => some "spock"
  | 5, 5 => some "vulcan"
  | 6, 0 => some "alice"
  | 6, 5 => some "mad-hatter"
  | 7, 0 => some "cheshire-cat"
  | _, _ => none

/-- Possible outcomes of `flavorFromVersion`.  `indexOutOfRange` models the
Go runtime panic raised by the unguarded `versionSplit[1]` access when the
split has a single element. -/
inductive FlavorResult where
  | ok (flavor : String)
  | errMajor
  | errMinor
  | unknownFlavor (major minor : Int)
  | indexOutOfRange
  deriving DecidableEq, Repr

/-- `flavorFromVersion` from `nodes.go`: split on `'.'`, `Atoi` the first
component (error ⇒ `errMajor`, returned before the second component is
touched), then access component 1 (out of bounds ⇒ runtime panic), `Atoi` it
(error ⇒ `errMinor`), floor the minor to 0 or 5, and consult the table. -/
def flavorFromVersion (version : String) : FlavorResult :=
  let versionSplit := splitC '.' version.data
  match go_atoi (versionSplit.headD []) with
  | none => .errMajor
  | some major =>
    if versionSplit.length < 2 then .indexOutOfRange
    else
      match go_atoi (versionSplit.getD 1 []) with
      | none => .errMinor
      | some minor =>
        let minorF : Int := if minor ≥ 5 then 5 else 0
        match versionToFlavor major minorF with
        | some flavor => .ok flavor
        | none => .unknownFlavor major minorF

structure NodeVersion where
  Version : String
  Flavor : String
  Build : String
  deriving DecidableEq, Repr

/-- `parseServerVersion` from `nodes.go`: `strings.Split` on `'-'` (every
occurrence, not just the first), flavor from part 0, `Build` from part 1 when
there are at least two parts; a flavor error propagates as `none`. -/
def parseServerVersion (version : String) : Option NodeVersion :=
  let versionParts := splitC '-' version.data
  match flavorFromVersion ⟨versionParts.headD []⟩ with
  | .ok flavor =>
    some { Version := ⟨versionParts.headD []⟩
           Flavor := flavor
           Build := if 1 < versionParts.length then ⟨versionParts.getD 1 []⟩ else "" }
  | _ => none

/-- `NodeVersion.toTagName` from `nodes.go`. -/
def toTagName (nv : NodeVersion) : String :=
  if nv.Build = "" then nv.Version ++ ".centos7"
  else nv.Version ++ "-" ++ nv.Build ++ ".centos7"

/-! ## clusters.go: data model -/

/-- `ClusterMeta` (owner + expiry record).  Modelled from the spec: the
metadata store itself is an external collaborator (spec section 6); only the
record shape and the zero value (`Owner = ""`, zero time) are used here. -/
structure ClusterMeta where
  Owner : String
  Timeout : Int
  deriving DecidableEq, Repr

/-- Modelled from the spec: the metadata store collaborator
(`create`/`get`/atomic `update` by key, spec section 6), as an association
list from cluster id to `ClusterMeta`. -/
abbrev MetaStore := List (String × ClusterMeta)

/-- `metaStore.GetClusterMeta`: `none` models a lookup error for a missing
key. -/
def getClusterMeta (store : MetaStore) (cid : String) : Option ClusterMeta :=
  (store.find? (fun p => p.1 = cid)).map (fun p => p.2)

/-- `metaStore.CreateClusterMeta`: insert a fresh record. -/
def createClusterMeta (store : MetaStore) (cid : String) (meta : ClusterMeta) :
    MetaStore :=
  (cid, meta) :: store

/-- `metaStore.UpdateClusterMeta`: atomic read-modify-write of the record
stored under `cid`. -/
def updateClusterMeta (store : MetaStore) (cid : String)
    (f : ClusterMeta → ClusterMeta) : MetaStore :=
  store.map (fun p => if p.1 = cid then (p.1, f p.2) else p)

/-- One element of the container runtime's `ContainerList` response, with the
four dyncluster labels read by the daemon inlined (`""` = label absent, which
is Go's zero value for a missing map key) and the `macvlan0` network entry of
`NetworkSettings.Networks` (`hasMacvlan0 = false` models a `nil` entry). -/
structure DockerContainer where
  ID : String
  State : String
  labelClusterID : String
  labelCreator : String
  labelNodeName : String
  labelInitialServerVersion : String
  hasMacvlan0 : Bool
  ipv4 : String
  ipv6 : String
  deriving DecidableEq, Repr

structure Node where
  ContainerID : String
  State : String
  Name : String
  InitialServerVersion : String
  IPv4Address : String
  IPv6Address : String
  deriving DecidableEq, Repr

structure Cluster where
  ID : String
  Creator : String
  Owner : String
  Timeout : Int
  Nodes : List Node
  deriving DecidableEq, Repr

/-- The caller context: `ContextUser` and `ContextIgnoreOwnership`. -/
structure Ctx where
  user : String
  ignoreOwnership : Bool
  deriving DecidableEq, Repr

/-! ## clusters.go: getAllClusters / getCluster -/

/-- The `Node` built for one container in `getAllClusters`: truncated
container id, state, labels, and the `macvlan0` addresses (a missing network
entry is replaced by an empty `EndpointSettings`, so the addresses are `""`).
Docker container ids are 64 hex characters, so the Go slice `ID[0:12]` is in
bounds; it is modelled by `take 12`. -/
def toNode (c : DockerContainer) : Node :=
  { ContainerID := ⟨c.ID.data.take 12⟩
    State := c.State
    Name := c.labelNodeName
    InitialServerVersion := c.labelInitialServerVersion
    IPv4Address := if c.hasMacvlan0 then c.ipv4 else ""
    IPv6Address := if c.hasMacvlan0 then c.ipv6 else "" }

/-- The `clusterCreator` accumulation loop of `getAllClusters`: the first
nonempty creator label in the group, or `""`. -/
def firstCreator : List DockerContainer → String
  | [] => ""
  | c :: cs => if c.labelCreator = "" then firstCreator cs else c.labelCreator

/-- The derived creator of a container group (defaults to `"unknown"`). -/
def clusterCreatorOf (cs : List DockerContainer) : String :=
  if firstCreator cs = "" then "unknown" else firstCreator cs

/-- The key set of the Go `clusterMap`: the distinct nonempty
`cluster_id` labels.  Go map iteration order is unspecified, so any fixed
enumeration order of the distinct keys is a faithful model; all properties
proved below are order-insensitive. -/
def clusterIDs (containers : List DockerContainer) : List String :=
  ((containers.map (fun c => c.labelClusterID)).filter (fun l => ¬l = "")).dedup

/-- The `Cluster` value assembled for one `clusterMap` entry: the group is
the containers carrying the label (in list order, as Go's `append`
preserves), the metadata record defaults to the Go zero value when the store
lookup fails, and the creator is derived per `clusterCreatorOf`. -/
def mkCluster (store : MetaStore) (containers : List DockerContainer)
    (cid : String) : Cluster :=
  let group := containers.filter (fun c => c.labelClusterID = cid)
  let meta := (getClusterMeta store cid).getD ⟨"", 0⟩
  { ID := cid
    Creator := clusterCreatorOf group
    Owner := meta.Owner
    Timeout := meta.Timeout
    Nodes := group.map toNode }

/-- `getAllClusters`: group containers by nonempty cluster-id label, join
with metadata, and keep a group iff ownership is ignored or its derived
creator equals the caller. -/
def getAllClusters (ctx : Ctx) (containers : List DockerContainer)
    (store : MetaStore) : List Cluster :=
  ((clusterIDs containers).map (mkCluster store containers)).filter
    (fun cl => ctx.ignoreOwnership ∨ cl.Creator = ctx.user)

/-- `getCluster`: the first (unique) visible cluster with the given id;
`none` models the `"cluster not found"` error. -/
def getCluster (ctx : Ctx) (containers : List DockerContainer)
    (store : MetaStore) (cid : String) : Option Cluster :=
  (getAllClusters ctx containers store).find? (fun cl => cl.ID = cid)

/-! ## clusters.go: killCluster -/

/-- The drain loop shared by `allocateCluster`/`killCluster`: the first
error received, `none` if every task succeeded. -/
def firstError : List (Option String) → Option String
  | [] => none
  | some e :: _ => some e
  | none :: rest => firstError rest

instance {ε α : Type} [DecidableEq ε] [DecidableEq α] :
    DecidableEq (Except ε α) := fun a b =>
  match a, b with
  | .error x, .error y =>
    if h : x = y then isTrue (by rw [h]) else isFalse (by simp [h])
  | .ok x, .ok y =>
    if h : x = y then isTrue (by rw [h]) else isFalse (by simp [h])
  | .error _, .ok _ => isFalse (by simp)
  | .ok _, .error _ => isFalse (by simp)

/-- Observables of a `killCluster` call: its return value and the container
ids for which `killNode` (a `ContainerStop` call) was issued. -/
structure KillOutcome where
  res : Except String Unit
  stopped : List String
  deriving DecidableEq, Repr

/-- `killCluster`: reconcile via `getCluster` (error `"cluster not found"`
if invisible), enforce ownership against the joined metadata `Owner`, then
stop every node concurrently and return the first error drained.
`stopResult nodeID` is the outcome of the runtime `ContainerStop` call;
results are drained here in spawn order — channel arrival order is
nondeterministic in Go, but every proved property is insensitive to it. -/
def killCluster (ctx : Ctx) (containers : List DockerContainer)
    (store : MetaStore) (stopResult : String → Option String)
    (cid : String) : KillOutcome :=
  match getCluster ctx containers store cid with
  | none => ⟨.error "cluster not found", []⟩
  | some cluster =>
    if ¬ctx.ignoreOwnership ∧ cluster.Owner ≠ ctx.user then
      ⟨.error "cannot kill clusters you don\x27t own", []⟩
    else
      let nodesToKill := cluster.Nodes.map (fun n => n.ContainerID)
      match firstError (nodesToKill.map stopResult) with
      | some e => ⟨.error e, nodesToKill⟩
      | none => ⟨.ok (), nodesToKill⟩

/-! ## clusters.go: allocateCluster -/

structure NodeOptions where
  Name : String
  Platform : String
  ServerVersion : String
  deriving DecidableEq, Repr

structure ClusterOptions where
  Timeout : Int
  Nodes : List NodeOptions
  deriving DecidableEq, Repr

/-- `time.Hour` in nanoseconds (Go `time.Duration` units). -/
def hour : Int := 3600 * 1000000000

/-- The node-name defaulting loop of `allocateCluster`: an unnamed node at
index `i` (0-based) becomes `node_<i+1>`. -/
def defaultNodeNames (nodes : List NodeOptions) : List NodeOptions :=
  nodes.enum.map (fun p =>
    if p.2.Name = "" then { p.2 with Name := "node_" ++ toString (p.1 + 1) }
    else p.2)

/-- Observables of an `allocateCluster` call: the returned value (cluster id
or error), whether `CreateClusterMeta` was called and what it wrote, how many
node-allocation goroutines were spawned, how many results were drained from
the signal channel, and whether the compensating `killCluster` was issued. -/
structure AllocOutcome where
  res : Except String String
  metaAttempted : Bool
  metaCreated : Option ClusterMeta
  nodesSpawned : Nat
  drained : Nat
  killIssued : Bool
  deriving DecidableEq, Repr

/-- `allocateCluster`: the four validation checks in source order (each
returns before any runtime or metadata call), then `CreateClusterMeta` with
`Owner = ContextUser(ctx)` and `Timeout = now + 1 hour` (the caller-requested
`opts.Timeout` is not stored), then one goroutine per node with all results
drained before the outcome is decided; on any node error the whole cluster is
torn down via `killCluster` and the first drained error is returned with an
empty cluster id.  `cid` is the generated random id, `now` the clock reading,
`createMetaErr` the metadata collaborator's reply, and `nodeResults` the
per-node `allocateNode` errors in channel arrival order. -/
def allocateCluster (ctx : Ctx) (now : Int) (cid : String)
    (opts : ClusterOptions) (createMetaErr : Option String)
    (nodeResults : List (Option String)) : AllocOutcome :=
  if opts.Timeout < 0 then
    ⟨.error "must specify a valid timeout for the cluster", false, none, 0, 0, false⟩
  else if 2 * 7 * 24 * hour < opts.Timeout then
    ⟨.error "cannot allocate clusters for longer than 2 weeks", false, none, 0, 0, false⟩
  else if opts.Nodes.length = 0 then
    ⟨.error "must specify at least a single node for the cluster", false, none, 0, 0, false⟩
  else if 10 < opts.Nodes.length then
    ⟨.error "cannot allocate clusters with more than 10 nodes", false, none, 0, 0, false⟩
  else
    let meta : ClusterMeta := ⟨ctx.user, now + hour⟩
    match createMetaErr with
    | some e => ⟨.error e, true, none, 0, 0, false⟩
    | none =>
      let nodesToAllocate := defaultNodeNames opts.Nodes
      match firstError (nodeResults.take nodesToAllocate.length) with
      | some e =>
        ⟨.error e, true, some meta, nodesToAllocate.length,
          nodesToAllocate.length, true⟩
      | none =>
        ⟨.ok cid, true, some meta, nodesToAllocate.length,
          nodesToAllocate.length, false⟩

/-! ## clusters.go: refreshCluster -/

structure RefreshOutcome where
  res : Except String Unit
  store : MetaStore
  deriving DecidableEq, Repr

/-- `refreshCluster`: check visibility via `getCluster` (error
`"cluster not found"` otherwise); build `newMeta` with `Owner =
ContextUser(ctx)` and `Timeout = now + newTimeout`; if `GetClusterMeta`
fails, insert `newMeta`, else atomically overwrite `Owner` and raise — never
lower — `Timeout` (`meta.Timeout.Before(newMeta.Timeout)` is the strict
comparison). -/
def refreshCluster (ctx : Ctx) (now : Int)
    (containers : List DockerContainer) (store : MetaStore)
    (cid : String) (newTimeout : Int) : RefreshOutcome :=
  match getCluster ctx containers store cid with
  | none => ⟨.error "cluster not found", store⟩
  | some _ =>
    let newMeta : ClusterMeta := ⟨ctx.user, now + newTimeout⟩
    match getClusterMeta store cid with
    | none => ⟨.ok (), createClusterMeta store cid newMeta⟩
    | some _ =>
      ⟨.ok (), updateClusterMeta store cid (fun meta =>
        { meta with
          Owner := newMeta.Owner
          Timeout := if meta.Timeout < newMeta.Timeout then newMeta.Timeout
                     else meta.Timeout })⟩

/-- A concrete runtime listing entry used by the example theorems below: a
running container of cluster `abc` created by `alice` (docker ids are 64 hex
characters). -/
def sampleContainer : DockerContainer :=
  { ID := "0123456789abcdef0123456789abcdef0123456789abcdef0123456789abcdef"
    State := "running"
    labelClusterID := "abc"
    labelCreator := "alice"
    labelNodeName := "node_1"
    labelInitialServerVersion := "6.5.1-2134"
    hasMacvlan0 := true
    ipv4 := "10.1.1.1"
    ipv6 := "" }

/-! ## Lemmas -/

theorem splitC_ne_nil (sep : Char) (cs : List Char) : splitC sep cs ≠ [] := by
  induction cs with
  | nil => simp [splitC]
  | cons c cs ih =>
    simp only [splitC]
    split
    · simp
    · cases h : splitC sep cs with
      | nil => simp
      | cons a t => simp

theorem splitC_length_pos (sep : Char) (cs : List Char) :
    0 < (splitC sep cs).length := by
  cases h : splitC sep cs with
  | nil => exact absurd h (splitC_ne_nil sep cs)
  | cons a t => simp

/-- The split has a single piece exactly when the separator does not occur. -/
theorem splitC_length_one_iff (sep : Char) (cs : List Char) :
    (splitC sep cs).length = 1 ↔ sep ∉ cs := by
  induction cs with
  | nil => simp [splitC]
  | cons c cs ih =>
    by_cases hc : c = sep
    · subst hc
      have h1 := splitC_length_pos c cs
      rw [splitC, if_pos rfl]
      constructor
      · intro h
        simp only [List.length_cons] at h
        exact absurd h (by omega)
      · intro h
        exact absurd (List.mem_cons_self c cs) h
    · simp only [splitC, if_neg hc]
      cases h : splitC sep cs with
      | nil => exact absurd h (splitC_ne_nil sep cs)
      | cons a t =>
        simp only [List.length_cons, List.mem_cons]
        rw [h] at ih
        simp only [List.length_cons] at ih
        constructor
        · intro hl
          intro hmem
          rcases hmem with h1 | h2
          · exact hc (h1 ▸ rfl)
          · exact (ih.mp (by omega)) h2
        · intro hmem
          have : sep ∉ cs := fun hin => hmem (Or.inr hin)
          have := ih.mpr this
          omega

theorem clusterCreatorOf_ne_empty (cs : List DockerContainer) :
    ¬clusterCreatorOf cs = "" := by
  rw [clusterCreatorOf]
  split
  · decide
  · assumption

theorem mkCluster_ID (store : MetaStore) (containers : List DockerContainer)
    (cid : String) : (mkCluster store containers cid).ID = cid := rfl

/-- Membership in the reconciled view, unfolded: a cluster is visible exactly
when it is the one assembled for its id, some container carries that (nonempty)
id label, and the ownership filter passes. -/
theorem mem_getAllClusters (ctx : Ctx) (containers : List DockerContainer)
    (store : MetaStore) (cl : Cluster) :
    cl ∈ getAllClusters ctx containers store ↔
      (cl = mkCluster store containers cl.ID ∧
       (∃ c ∈ containers, c.labelClusterID = cl.ID ∧ ¬cl.ID = "") ∧
       (ctx.ignoreOwnership ∨ cl.Creator = ctx.user)) := by
  rw [getAllClusters, List.mem_filter, List.mem_map]
  constructor
  · rintro ⟨⟨k, hk, hcl⟩, hp⟩
    have hid : cl.ID = k := by rw [← hcl]; rfl
    rw [clusterIDs, List.mem_dedup, List.mem_filter, List.mem_map] at hk
    obtain ⟨⟨c, hc, hlab⟩, hne⟩ := hk
    simp only [decide_eq_true_eq] at hne hp
    subst hid
    exact ⟨hcl.symm, ⟨c, hc, hlab, hne⟩, hp⟩
  · rintro ⟨hcl, ⟨c, hc, hlab, hne⟩, hp⟩
    refine ⟨⟨cl.ID, ?_, hcl.symm⟩, by simpa using hp⟩
    rw [clusterIDs, List.mem_dedup, List.mem_filter, List.mem_map]
    exact ⟨⟨c, hc, hlab⟩, by simpa using hne⟩

theorem getCluster_eq_some (ctx : Ctx) (containers : List DockerContainer)
    (store : MetaStore) (cid : String) (cl : Cluster)
    (h : getCluster ctx containers store cid = some cl) :
    cl ∈ getAllClusters ctx containers store ∧ cl.ID = cid := by
  rw [getCluster] at h
  refine ⟨List.mem_of_find?_eq_some h, ?_⟩
  have := List.find?_some h
  simpa using this

theorem getCluster_eq_none_of_no_label (ctx : Ctx)
    (containers : List DockerContainer) (store : MetaStore) (cid : String)
    (h : ∀ c ∈ containers, ¬c.labelClusterID = cid) :
    getCluster ctx containers store cid = none := by
  rw [getCluster, List.find?_eq_none]
  intro cl hmem
  obtain ⟨_, ⟨c, hc, hlab, _⟩, _⟩ := (mem_getAllClusters ctx containers store cl).mp hmem
  simp only [decide_eq_true_eq]
  intro hid
  exact h c hc (hid ▸ hlab)

/-- C4.  A cluster id appears in `getAllClusters` output iff some listed
container carries it as a (nonempty) cluster-id label and the ownership
filter passes (override set, or derived creator equals the caller); and a
missing metadata record never hides the cluster — it surfaces with empty
owner and zero timeout. -/
theorem getAllClusters_visibility (ctx : Ctx)
    (containers : List DockerContainer) (store : MetaStore) (cid : String) :
    ((∃ cl ∈ getAllClusters ctx containers store, cl.ID = cid) ↔
       ((∃ c ∈ containers, c.labelClusterID = cid ∧ ¬cid = "") ∧
        (ctx.ignoreOwnership ∨
         clusterCreatorOf (containers.filter
           (fun c => c.labelClusterID = cid)) = ctx.user)))
    ∧ (∀ cl ∈ getAllClusters ctx containers store,
         cl.ID = cid → getClusterMeta store cid = none →
         cl.Owner = "" ∧ cl.Timeout = 0) := by
  constructor
  · constructor
    · rintro ⟨cl, hmem, hid⟩
      obtain ⟨hcl, ⟨c, hc, hlab, hne⟩, hp⟩ :=
        (mem_getAllClusters ctx containers store cl).mp hmem
      subst hid
      refine ⟨⟨c, hc, hlab, hne⟩, ?_⟩
      rcases hp with hp | hp
      · exact Or.inl hp
      · refine Or.inr ?_
        rw [← hp, hcl]
        rfl
    · rintro ⟨⟨c, hc, hlab, hne⟩, hp⟩
      refine ⟨mkCluster store containers cid, ?_, rfl⟩
      rw [mem_getAllClusters]
      refine ⟨rfl, ⟨c, hc, hlab, hne⟩, ?_⟩
      rcases hp with hp | hp
      · exact Or.inl hp
      · exact Or.inr hp
  · intro cl hmem hid hmeta
    obtain ⟨hcl, _, _⟩ := (mem_getAllClusters ctx containers store cl).mp hmem
    subst hid
    rw [hcl]
    simp [mkCluster, hmeta]

/-- C5.  `killCluster` of an id carried by no container fails with the
not-found error and stops nothing; `killCluster` of an existing cluster —
one present in the caller's reconciled view, which is what existence means
for the daemon (spec section 3 invariant) — whose joined metadata owner is
not the caller fails, without the override, with the ownership error and
stops nothing. -/
theorem killCluster_auth (ctx : Ctx) (containers : List DockerContainer)
    (store : MetaStore) (stopResult : String → Option String) (cid : String) :
    ((∀ c ∈ containers, ¬c.labelClusterID = cid) →
       killCluster ctx containers store stopResult cid =
         ⟨.error "cluster not found", []⟩)
    ∧ (∀ cl, getCluster ctx containers store cid = some cl →
         ctx.ignoreOwnership = false → ¬cl.Owner = ctx.user →
         killCluster ctx containers store stopResult cid =
           ⟨.error "cannot kill clusters you don\x27t own", []⟩) := by
  constructor
  · intro h
    rw [killCluster, getCluster_eq_none_of_no_label ctx containers store cid h]
  · intro cl hget hio hown
    have hcond : ¬ctx.ignoreOwnership = true ∧ cl.Owner ≠ ctx.user := by
      rw [hio]
      exact ⟨Bool.false_ne_true, hown⟩
    simp only [killCluster, hget]
    rw [if_pos hcond]

/-- C10 (amended), first counterexample part is separate.  When the metadata
record of a visible cluster is missing, the reconciled view shows an empty
owner, and `killCluster` without the override fails with the ownership error
— even for the cluster's creator — stopping nothing.  (A caller to whom the
cluster is not visible gets the not-found error instead, which is why the
original "any caller" phrasing fails.) -/
theorem killCluster_missing_meta (ctx : Ctx)
    (containers : List DockerContainer) (store : MetaStore)
    (stopResult : String → Option String) (cid : String) (cl : Cluster)
    (hio : ctx.ignoreOwnership = false)
    (hget : getCluster ctx containers store cid = some cl)
    (hmeta : getClusterMeta store cid = none) :
    cl.Owner = "" ∧
    killCluster ctx containers store stopResult cid =
      ⟨.error "cannot kill clusters you don\x27t own", []⟩ := by
  obtain ⟨hmem, hid⟩ := getCluster_eq_some ctx containers store cid cl hget
  obtain ⟨hcl, _, hp⟩ := (mem_getAllClusters ctx containers store cl).mp hmem
  have howner : cl.Owner = "" := by
    rw [hcl, hid]
    simp [mkCluster, hmeta]
  have hcreator : cl.Creator = ctx.user := by
    rcases hp with hp | hp
    · rw [hio] at hp
      exact absurd hp Bool.false_ne_true
    · exact hp
  have huser : ¬ctx.user = "" := by
    rw [← hcreator, hcl]
    exact clusterCreatorOf_ne_empty _
  refine ⟨howner, ?_⟩
  have hcond : ¬ctx.ignoreOwnership = true ∧ cl.Owner ≠ ctx.user := by
    rw [hio]
    exact ⟨Bool.false_ne_true, by rw [howner]; exact fun h => huser h.symm⟩
  simp only [killCluster, hget]
  rw [if_pos hcond]

theorem getClusterMeta_updateClusterMeta (store : MetaStore) (cid : String)
    (f : ClusterMeta → ClusterMeta) :
    getClusterMeta (updateClusterMeta store cid f) cid =
      (getClusterMeta store cid).map f := by
  induction store with
  | nil => rfl
  | cons p rest ih =>
    by_cases h : p.1 = cid
    · simp [getClusterMeta, updateClusterMeta, h]
    · simp only [getClusterMeta, updateClusterMeta, List.map_cons, if_neg h]
      rw [List.find?_cons_of_neg, List.find?_cons_of_neg]
      · exact ih
      · simpa using h
      · simpa using h

/-- C3.  `refreshCluster` fails with the not-found error when the cluster is
absent from the caller's reconciled view (spec section 3 existence) and leaves
the store unchanged; when only the metadata record is missing it inserts a
fresh record with the caller as owner and `now + newTimeout`; when the record
exists with timeout `T1` it atomically overwrites the owner with the caller
and stores `now + newTimeout` only if that exceeds `T1`, otherwise keeping
`T1` — the timeout is never lowered. -/
theorem refreshCluster_monotonic (ctx : Ctx) (now : Int)
    (containers : List DockerContainer) (store : MetaStore) (cid : String)
    (newT : Int) :
    (getCluster ctx containers store cid = none →
       refreshCluster ctx now containers store cid newT =
         ⟨.error "cluster not found", store⟩)
    ∧ (¬getCluster ctx containers store cid = none →
       getClusterMeta store cid = none →
       refreshCluster ctx now containers store cid newT =
         ⟨.ok (), createClusterMeta store cid ⟨ctx.user, now + newT⟩⟩)
    ∧ (∀ m, ¬getCluster ctx containers store cid = none →
       getClusterMeta store cid = some m →
       (refreshCluster ctx now containers store cid newT).res = .ok () ∧
       getClusterMeta (refreshCluster ctx now containers store cid newT).store
           cid =
         some ⟨ctx.user,
           if m.Timeout < now + newT then now + newT else m.Timeout⟩) := by
  refine ⟨?_, ?_, ?_⟩
  · intro h
    rw [refreshCluster, h]
  · intro hsome hmeta
    rw [refreshCluster]
    cases hg : getCluster ctx containers store cid with
    | none => exact absurd hg hsome
    | some cl => rw [hmeta]
  · intro m hsome hmeta
    rw [refreshCluster]
    cases hg : getCluster ctx containers store cid with
    | none => exact absurd hg hsome
    | some cl =>
      rw [hmeta]
      refine ⟨rfl, ?_⟩
      simp only [RefreshOutcome.store]
      rw [getClusterMeta_updateClusterMeta, hmeta]
      rfl

theorem defaultNodeNames_length (nodes : List NodeOptions) :
    (defaultNodeNames nodes).length = nodes.length := by
  rw [defaultNodeNames, List.length_map, List.enum_length]

theorem firstError_eq_none (results : List (Option String)) :
    firstError results = none ↔ ∀ r ∈ results, r = none := by
  induction results with
  | nil => simp [firstError]
  | cons r rest ih =>
    cases r with
    | none => simp [firstError, ih]
    | some e => simp [firstError]

/-- C1.  For a request that passes validation and whose metadata record is
created, if any node allocation fails then all `N` results are drained from
the signal channel, the compensating `killCluster` is issued, and the first
error received is returned with no cluster id. -/
theorem allocateCluster_rollback (ctx : Ctx) (now : Int) (cid : String)
    (opts : ClusterOptions) (results : List (Option String)) (e : String)
    (ht0 : 0 ≤ opts.Timeout) (ht1 : opts.Timeout ≤ 2 * 7 * 24 * hour)
    (hn0 : 1 ≤ opts.Nodes.length) (hn1 : opts.Nodes.length ≤ 10)
    (hlen : results.length = opts.Nodes.length)
    (hfail : firstError results = some e) :
    allocateCluster ctx now cid opts none results =
      ⟨.error e, true, some ⟨ctx.user, now + hour⟩, opts.Nodes.length,
        opts.Nodes.length, true⟩ := by
  rw [allocateCluster, if_neg (by omega), if_neg (by omega),
    if_neg (by omega), if_neg (by omega)]
  simp only [defaultNodeNames_length, ← hlen, List.take_length, hfail]

/-- C2 (amended).  `allocateCluster` rejects a request — returning one of the
four validation errors, calling neither the metadata store nor the container
runtime — exactly when `timeout < 0`, `timeout > 14 days`, `nodeCount = 0` or
`nodeCount > 10`; every request within those bounds (timeout `0` included,
which is where the original `0 < timeout` claim fails) proceeds to create the
metadata record. -/
theorem allocateCluster_validation (ctx : Ctx) (now : Int) (cid : String)
    (opts : ClusterOptions) (createMetaErr : Option String)
    (results : List (Option String)) :
    ((allocateCluster ctx now cid opts createMetaErr results).metaAttempted
        = false ↔
      (opts.Timeout < 0 ∨ 2 * 7 * 24 * hour < opts.Timeout ∨
       opts.Nodes.length = 0 ∨ 10 < opts.Nodes.length))
    ∧ ((allocateCluster ctx now cid opts createMetaErr results).metaAttempted
        = false →
      (allocateCluster ctx now cid opts createMetaErr results).nodesSpawned
        = 0 ∧
      ∃ msg,
        (allocateCluster ctx now cid opts createMetaErr results).res =
          .error msg ∧
        (msg = "must specify a valid timeout for the cluster" ∨
         msg = "cannot allocate clusters for longer than 2 weeks" ∨
         msg = "must specify at least a single node for the cluster" ∨
         msg = "cannot allocate clusters with more than 10 nodes")) := by
  constructor
  · simp only [allocateCluster]
    split_ifs with h1 h2 h3 h4
    · exact iff_of_true rfl (Or.inl h1)
    · exact iff_of_true rfl (Or.inr (Or.inl h2))
    · exact iff_of_true rfl (Or.inr (Or.inr (Or.inl h3)))
    · exact iff_of_true rfl (Or.inr (Or.inr (Or.inr h4)))
    · refine iff_of_false ?_ ?_
      · cases createMetaErr with
        | some e => simp
        | none =>
          cases firstError (List.take (defaultNodeNames opts.Nodes).length results) with
          | some e => simp
          | none => simp
      · intro h
        rcases h with h | h | h | h
        · exact h1 h
        · exact h2 h
        · exact h3 h
        · exact h4 h
  · simp only [allocateCluster]
    split_ifs with h1 h2 h3 h4
    · exact fun _ => ⟨rfl, _, rfl, Or.inl rfl⟩
    · exact fun _ => ⟨rfl, _, rfl, Or.inr (Or.inl rfl)⟩
    · exact fun _ => ⟨rfl, _, rfl, Or.inr (Or.inr (Or.inl rfl))⟩
    · exact fun _ => ⟨rfl, _, rfl, Or.inr (Or.inr (Or.inr rfl))⟩
    · intro hfalse
      exfalso
      cases createMetaErr with
      | some e => exact absurd hfalse (by simp)
      | none =>
        revert hfalse
        cases firstError (List.take (defaultNodeNames opts.Nodes).length results) with
        | some e => simp
        | none => simp

/-- C8.  The `ClusterMeta` record written by `allocateCluster` has the caller
as owner and `now + 1 hour` as timeout — a fixed default window independent
of the requested `opts.Timeout`: two valid requests issued at the same time
that differ only in their requested timeouts store the identical record. -/
theorem allocateCluster_meta_fixed_window (ctx : Ctx) (now : Int)
    (cid₁ cid₂ : String) (opts₁ opts₂ : ClusterOptions)
    (r₁ r₂ : List (Option String))
    (h10 : 0 ≤ opts₁.Timeout) (h11 : opts₁.Timeout ≤ 2 * 7 * 24 * hour)
    (h20 : 0 ≤ opts₂.Timeout) (h21 : opts₂.Timeout ≤ 2 * 7 * 24 * hour)
    (hnodes : opts₁.Nodes = opts₂.Nodes)
    (hn0 : 1 ≤ opts₁.Nodes.length) (hn1 : opts₁.Nodes.length ≤ 10) :
    (allocateCluster ctx now cid₁ opts₁ none r₁).metaCreated =
        some ⟨ctx.user, now + hour⟩ ∧
    (allocateCluster ctx now cid₂ opts₂ none r₂).metaCreated =
        some ⟨ctx.user, now + hour⟩ := by
  have key : ∀ (cid : String) (opts : ClusterOptions)
      (r : List (Option String)),
      0 ≤ opts.Timeout → opts.Timeout ≤ 2 * 7 * 24 * hour →
      1 ≤ opts.Nodes.length → opts.Nodes.length ≤ 10 →
      (allocateCluster ctx now cid opts none r).metaCreated =
        some ⟨ctx.user, now + hour⟩ := by
    intro cid opts r ht0 ht1 hm0 hm1
    simp only [allocateCluster]
    rw [if_neg (by omega), if_neg (by omega), if_neg (by omega),
      if_neg (by omega)]
    cases firstError (List.take (defaultNodeNames opts.Nodes).length r) with
    | some e => rfl
    | none => rfl
  exact ⟨key cid₁ opts₁ r₁ h10 h11 hn0 hn1,
    key cid₂ opts₂ r₂ h20 h21 (hnodes ▸ hn0) (hnodes ▸ hn1)⟩

theorem splitC_eq_single (sep : Char) (cs : List Char) (h : sep ∉ cs) :
    splitC sep cs = [cs] := by
  induction cs with
  | nil => rfl
  | cons c cs ih =>
    rw [splitC, if_neg (fun hc => h (by rw [← hc]; exact List.mem_cons_self c cs)),
      ih (fun hin => h (List.mem_cons_of_mem c hin))]

/-- C6.  When the input splits on `'.'` into at least two components and the
first two parse as integers `M` and `m`, `flavorFromVersion` floors `m` to 5
when `m ≥ 5` and to 0 otherwise, returns the table entry at the floored pair
when present, and fails with the unknown-flavor error when the pair is
outside the table. -/
theorem flavorFromVersion_table (v : String) (M m : Int)
    (hM : go_atoi ((splitC '.' v.data).headD []) = some M)
    (hlen : 2 ≤ (splitC '.' v.data).length)
    (hm : go_atoi ((splitC '.' v.data).getD 1 []) = some m) :
    (∀ f, versionToFlavor M (if m ≥ 5 then 5 else 0) = some f →
        flavorFromVersion v = .ok f)
    ∧ (versionToFlavor M (if m ≥ 5 then 5 else 0) = none →
        flavorFromVersion v = .unknownFlavor M (if m ≥ 5 then 5 else 0)) := by
  have h2 : ¬(splitC '.' v.data).length < 2 := by omega
  constructor
  · intro f hf
    simp only [flavorFromVersion, hM, if_neg h2, hm, hf]
  · intro hf
    simp only [flavorFromVersion, hM, if_neg h2, hm, hf]

/-- C7 (amended).  `parseServerVersion` splits on every `'-'` (Go
`strings.Split`): the version is the segment before the first `'-'` and the
build is the segment between the first and second `'-'` when one exists —
text after a second `'-'` is discarded, which is where the "entire remainder"
claim fails.  The concrete `6.5.1-2134` example holds, and a build-less
descriptor's tag name is `<version>.centos7`. -/
theorem parseServerVersion_split (v : String) (nv : NodeVersion)
    (h : parseServerVersion v = some nv) :
    nv.Version = ⟨(splitC '-' v.data).headD []⟩ ∧
    nv.Build = (if 1 < (splitC '-' v.data).length
                then (⟨(splitC '-' v.data).getD 1 []⟩ : String) else "") ∧
    (nv.Build = "" → toTagName nv = nv.Version ++ ".centos7") ∧
    parseServerVersion "6.5.1-2134" = some ⟨"6.5.1", "mad-hatter", "2134"⟩ ∧
    toTagName ⟨"6.5.1", "mad-hatter", "2134"⟩ = "6.5.1-2134.centos7" := by
  have tag : ∀ u : NodeVersion, u.Build = "" →
      toTagName u = u.Version ++ ".centos7" := by
    intro u hb
    rw [toTagName, if_pos hb]
  have hchar : nv = ⟨⟨(splitC '-' v.data).headD []⟩, nv.Flavor,
      if 1 < (splitC '-' v.data).length
      then (⟨(splitC '-' v.data).getD 1 []⟩ : String) else ""⟩ := by
    simp only [parseServerVersion] at h
    revert h
    cases flavorFromVersion ⟨(splitC '-' v.data).headD []⟩ with
    | ok flavor =>
      intro h
      injection h with h
      subst h
      rfl
    | errMajor => intro h; exact absurd h (by simp)
    | errMinor => intro h; exact absurd h (by simp)
    | unknownFlavor a b => intro h; exact absurd h (by simp)
    | indexOutOfRange => intro h; exact absurd h (by simp)
  refine ⟨?_, ?_, tag nv, by decide, by decide⟩
  · rw [hchar]
  · rw [hchar]

/-- C9 (amended).  With no `'.'` in the input, `flavorFromVersion` reaches
the out-of-bounds `versionSplit[1]` access only when the whole input parses
as an integer; a non-numeric dot-less input returns the major
conversion error first (the original claim overlooked this branch order).
With at least one `'.'`, both component accesses are in bounds and the
conversion-error branches are reached exactly for non-numeric components. -/
theorem flavorFromVersion_oob (v : String) :
    ('.' ∉ v.data →
       (go_atoi v.data = none → flavorFromVersion v = .errMajor) ∧
       (∀ M, go_atoi v.data = some M →
          flavorFromVersion v = .indexOutOfRange))
    ∧ ('.' ∈ v.data →
       ¬flavorFromVersion v = .indexOutOfRange ∧
       (flavorFromVersion v = .errMajor ↔
          go_atoi ((splitC '.' v.data).headD []) = none) ∧
       (flavorFromVersion v = .errMinor ↔
          (¬go_atoi ((splitC '.' v.data).headD []) = none ∧
           go_atoi ((splitC '.' v.data).getD 1 []) = none))) := by
  constructor
  · intro hnot
    have hs : splitC '.' v.data = [v.data] := splitC_eq_single '.' v.data hnot
    constructor
    · intro h
      simp only [flavorFromVersion, hs, List.headD_cons, h]
    · intro M h
      simp only [flavorFromVersion, hs, List.headD_cons, h]
      rfl
  · intro hin
    have hlen : 2 ≤ (splitC '.' v.data).length := by
      have hpos := splitC_length_pos '.' v.data
      have hone := (splitC_length_one_iff '.' v.data).not
      by_contra hcon
      have : (splitC '.' v.data).length = 1 := by omega
      exact ((splitC_length_one_iff '.' v.data).mp this) hin
    have h2 : ¬(splitC '.' v.data).length < 2 := by omega
    cases hM : go_atoi ((splitC '.' v.data).headD []) with
    | none =>
      have hres : flavorFromVersion v = .errMajor := by
        simp only [flavorFromVersion, hM]
      refine ⟨by rw [hres]; simp, ?_, ?_⟩
      · rw [hres]
        exact iff_of_true rfl rfl
      · rw [hres]
        exact iff_of_false (by simp) (fun hf => hf.1 rfl)
    | some M =>
      cases hm : go_atoi ((splitC '.' v.data).getD 1 []) with
      | none =>
        have hres : flavorFromVersion v = .errMinor := by
          simp only [flavorFromVersion, hM, if_neg h2, hm]
        refine ⟨by rw [hres]; simp, ?_, ?_⟩
        · rw [hres]
          exact iff_of_false (by simp)
            (fun hfalse => Option.noConfusion hfalse)
        · rw [hres]
          exact iff_of_true rfl
            ⟨fun hfalse => Option.noConfusion hfalse, rfl⟩
      | some m =>
        have hres : ¬flavorFromVersion v = .indexOutOfRange ∧
            ¬flavorFromVersion v = .errMajor ∧
            ¬flavorFromVersion v = .errMinor := by
          simp only [flavorFromVersion, hM, if_neg h2, hm]
          cases versionToFlavor M (if m ≥ 5 then 5 else 0) with
          | some f => exact ⟨by simp, by simp, by simp⟩
          | none => exact ⟨by simp, by simp, by simp⟩
        exact ⟨hres.1,
          iff_of_false hres.2.1 (fun hfalse => Option.noConfusion hfalse),
          iff_of_false hres.2.2
            (fun hfalse => Option.noConfusion hfalse.2)⟩

/-! ## Concrete instances: counterexamples and witnesses -/

/-- C2 counterexample.  A request with `timeout = 0` violates the claimed
bound `0 < timeout`, yet `allocateCluster` accepts it: validation passes, the
metadata record is written and the cluster id is returned — so the code
bound is `0 ≤ timeout`, not `0 < timeout`. -/
theorem allocateCluster_zero_timeout_accepted :
    (allocateCluster ⟨"user1", false⟩ 0 "abcd1234"
        ⟨0, [⟨"n1", "", "6.5.1"⟩]⟩ none [none]).res = .ok "abcd1234" ∧
    (allocateCluster ⟨"user1", false⟩ 0 "abcd1234"
        ⟨0, [⟨"n1", "", "6.5.1"⟩]⟩ none [none]).metaCreated =
      some ⟨"user1", 0 + hour⟩ := by decide

/-- C7 counterexample.  For `6.5.1-2134-x` the build is `2134`, not the
entire remainder `2134-x` after the first `-`: `strings.Split` is not
split-on-first. -/
theorem parseServerVersion_multi_dash :
    parseServerVersion "6.5.1-2134-x" =
      some ⟨"6.5.1", "mad-hatter", "2134"⟩ ∧
    ¬(parseServerVersion "6.5.1-2134-x").map NodeVersion.Build =
      some "2134-x" := by decide

/-- C9 counterexample.  `abc` has no `'.'`, yet `flavorFromVersion` returns
the major conversion error rather than reaching the out-of-bounds access:
the `Atoi` failure on the major is reported first. -/
theorem flavorFromVersion_dotless_invalid :
    '.' ∉ "abc".data ∧ flavorFromVersion "abc" = .errMajor ∧
    ¬flavorFromVersion "abc" = .indexOutOfRange := by decide

/-- C10 counterexample.  With the metadata record missing, a non-creator
caller without the override gets the not-found error, not the ownership
error: the cluster is invisible to that caller. -/
theorem killCluster_nonowner_notfound :
    getClusterMeta [] "abc" = none ∧
    (killCluster ⟨"bob", false⟩ [sampleContainer] [] (fun _ => none)
        "abc").res = .error "cluster not found" ∧
    ¬(killCluster ⟨"bob", false⟩ [sampleContainer] [] (fun _ => none)
        "abc").res = .error "cannot kill clusters you don\x27t own" := by
  decide

theorem allocateCluster_rollback_witness :
    allocateCluster ⟨"alice", false⟩ 0 "abcd1234"
        ⟨hour, [⟨"n1", "", "6.5.1"⟩, ⟨"", "", "6.5.1"⟩]⟩ none
        [none, some "create failed"] =
      ⟨.error "create failed", true, some ⟨"alice", 0 + hour⟩, 2, 2, true⟩ :=
  allocateCluster_rollback ⟨"alice", false⟩ 0 "abcd1234"
    ⟨hour, [⟨"n1", "", "6.5.1"⟩, ⟨"", "", "6.5.1"⟩]⟩
    [none, some "create failed"] "create failed"
    (by decide) (by decide) (by decide) (by decide) (by decide) (by decide)

theorem allocateCluster_validation_witness :
    (allocateCluster ⟨"user1", false⟩ 0 "abcd1234"
        ⟨-1, [⟨"n1", "", "6.5.1"⟩]⟩ none [none]).metaAttempted = false :=
  (allocateCluster_validation ⟨"user1", false⟩ 0 "abcd1234"
      ⟨-1, [⟨"n1", "", "6.5.1"⟩]⟩ none [none]).1.mpr (Or.inl (by decide))

theorem refreshCluster_monotonic_witness :
    (refreshCluster ⟨"alice", false⟩ 50 [sampleContainer]
        [("abc", ⟨"bob", 100⟩)] "abc" 10).res = .ok () ∧
    getClusterMeta (refreshCluster ⟨"alice", false⟩ 50 [sampleContainer]
        [("abc", ⟨"bob", 100⟩)] "abc" 10).store "abc" =
      some ⟨"alice", 100⟩ := by
  have h := (refreshCluster_monotonic ⟨"alice", false⟩ 50 [sampleContainer]
      [("abc", ⟨"bob", 100⟩)] "abc" 10).2.2 ⟨"bob", 100⟩ (by decide) (by decide)
  refine ⟨h.1, ?_⟩
  rw [h.2]
  decide

theorem getAllClusters_visibility_witness :
    ∃ cl ∈ getAllClusters ⟨"alice", false⟩ [sampleContainer] [],
      cl.ID = "abc" :=
  (getAllClusters_visibility ⟨"alice", false⟩ [sampleContainer] [] "abc").1.mpr
    (by decide)

theorem killCluster_auth_witness :
    killCluster ⟨"alice", false⟩ [sampleContainer] [("abc", ⟨"bob", 100⟩)]
        (fun _ => none) "abc" =
      ⟨.error "cannot kill clusters you don\x27t own", []⟩ :=
  (killCluster_auth ⟨"alice", false⟩ [sampleContainer] [("abc", ⟨"bob", 100⟩)]
      (fun _ => none) "abc").2
    (mkCluster [("abc", ⟨"bob", 100⟩)] [sampleContainer] "abc")
    (by decide) rfl (by decide)

theorem flavorFromVersion_table_witness :
    flavorFromVersion "6.5.1" = .ok "mad-hatter" :=
  (flavorFromVersion_table "6.5.1" 6 5 (by decide) (by decide) (by decide)).1
    "mad-hatter" (by decide)

theorem parseServerVersion_split_witness :
    toTagName ⟨"7.0.0", "cheshire-cat", ""⟩ = "7.0.0" ++ ".centos7" :=
  (parseServerVersion_split "7.0.0" ⟨"7.0.0", "cheshire-cat", ""⟩
      (by decide)).2.2.1 rfl

theorem allocateCluster_meta_fixed_window_witness :
    (allocateCluster ⟨"user1", false⟩ 0 "aaaa1111"
        ⟨0, [⟨"n1", "", "6.5.1"⟩]⟩ none []).metaCreated =
      some ⟨"user1", 0 + hour⟩ ∧
    (allocateCluster ⟨"user1", false⟩ 0 "bbbb2222"
        ⟨hour, [⟨"n1", "", "6.5.1"⟩]⟩ none []).metaCreated =
      some ⟨"user1", 0 + hour⟩ :=
  allocateCluster_meta_fixed_window ⟨"user1", false⟩ 0 "aaaa1111" "bbbb2222"
    ⟨0, [⟨"n1", "", "6.5.1"⟩]⟩ ⟨hour, [⟨"n1", "", "6.5.1"⟩]⟩ [] []
    (by decide) (by decide) (by decide) (by decide) rfl (by decide) (by decide)

theorem flavorFromVersion_oob_witness :
    flavorFromVersion "7" = .indexOutOfRange :=
  ((flavorFromVersion_oob "7").1 (by decide)).2 7 (by decide)

theorem killCluster_missing_meta_witness :
    (mkCluster [] [sampleContainer] "abc").Owner = "" ∧
    killCluster ⟨"alice", false⟩ [sampleContainer] [] (fun _ => none) "abc" =
      ⟨.error "cannot kill clusters you don\x27t own", []⟩ :=
  killCluster_missing_meta ⟨"alice", false⟩ [sampleContainer] []
    (fun _ => none) "abc" (mkCluster [] [sampleContainer] "abc")
    rfl (by decide) rfl

end Daemon
